import Mathlib

/-!
# Verification of the naumen_api report pipeline

Shallow embedding of the service-level report normalizer
(`src/naumen_api/parser/service_level.py`) and of the report
submitter / locator (`src/clamp/crm/client.py`), together with
theorems settling the specification claims about them.

Modelling conventions:
* a parsed table row (`RawRow`) carries the seven canonical column
  cells of the service-level report, already converted the way
  `_formating_service_level_data` converts them (`int()` on the four
  count cells — report cells are nonnegative counts, so `Nat`;
  `float()` on the percentage cell, modelled as `ℚ`);
* Python dicts that are iterated in insertion order are association
  lists; Python sets are `List.dedup` results (order inside a set is
  irrelevant to every claim);
* `float` arithmetic is modelled exactly in `ℚ`, with Python's
  banker's rounding `round(x, 1)` as `pyround1`;
* calendar dates are day ordinals (`Nat`); "today" is the same kind
  of ordinal, compared with `≤` exactly where the source compares
  `today >= int(day)`.
-/

namespace NaumenApi

/-- Errors of `exceptions.py`: `CantGetData` when the backend data is
unusable, `ConnectionsFailed` on transport failure. -/
inductive NaumenError where
  | CantGetData
  | ConnectionsFailed
  deriving DecidableEq, Repr

/-- One parsed body row of the service-level table: the seven cells
keyed by the canonical column labels ("День", "Группа",
"Поступило в ТП", "Количество первичных", "Принято за 15 минут",
"В очереди более 15 мин", "Service Level (%)"), with the numeric
conversions `_formating_service_level_data` applies. -/
structure RawRow where
  day : String
  group : String
  total_issues : Nat
  total_primary_issues : Nat
  num_issues_before_deadline : Nat
  num_issues_after_deadline : Nat
  service_level : ℚ
  deriving DecidableEq, Repr

/-- The `ServiceLevel` dataclass of `service_level.py`.  Its `day`
attribute is annotated `int` in the source but at runtime receives the
raw "День" cell text (a string), which is what we model. -/
structure ServiceLevel where
  day : String
  group : String
  total_issues : Nat
  total_primary_issues : Nat
  num_issues_before_deadline : Nat
  num_issues_after_deadline : Nat
  service_level : ℚ
  deriving DecidableEq, Repr

/-- Python's `round` to the nearest integer, ties to even. -/
def round_half_even (q : ℚ) : ℤ :=
  let f : ℤ := Int.fdiv q.num (q.den : ℤ)
  let r : ℚ := q - (f : ℚ)
  if r < 1 / 2 then f
  else if 1 / 2 < r then f + 1
  else if f % 2 = 0 then f else f + 1

/-- Python's `round(q, 1)`: round to one decimal place, ties to even. -/
def pyround1 (q : ℚ) : ℚ := (round_half_even (q * 10) : ℚ) / 10

/-- The synthesized row `dict(zip(lable, (str(day), group, "0", "0",
"0", "0", sl)))` of `_service_lavel_data_completion`. -/
def synth_row (day : Nat) (group : String) (sl : ℚ) : RawRow :=
  { day := toString day, group := group, total_issues := 0,
    total_primary_issues := 0, num_issues_before_deadline := 0,
    num_issues_after_deadline := 0, service_level := sl }

/-- Body of the `for day, content in days.items()` loop of
`_service_lavel_data_completion`: `sl` is `"100.0"` when
`today >= int(day)` and `"0.0"` otherwise; a day with no rows gets one
synthesized row per group; a day whose row count differs from 2 gets
the groups missing from its rows appended (in `groups` order). -/
def complete_day (today : Nat) (groups : List String) (day : Nat)
    (content : List RawRow) : List RawRow :=
  let sl : ℚ := if day ≤ today then 100 else 0
  if content.length = 0 then
    groups.map (fun g => synth_row day g sl)
  else if content.length ≠ 2 then
    content ++
      ((groups.filter (· ∉ content.map RawRow.group)).map
        (fun g => synth_row day g sl))
  else content

/-- `_service_lavel_data_completion(days, groups, lable)` over the
days dict (an association list iterated in insertion order). -/
def service_lavel_data_completion (today : Nat)
    (days : List (Nat × List RawRow)) (groups : List String) :
    List (Nat × List RawRow) :=
  days.map (fun p => (p.1, complete_day today groups p.1 p.2))

/-- The per-row `ServiceLevel(...)` constructed inside the inner loop
of `_formating_service_level_data`. -/
def to_record (r : RawRow) : ServiceLevel :=
  { day := r.day, group := r.group, total_issues := r.total_issues,
    total_primary_issues := r.total_primary_issues,
    num_issues_before_deadline := r.num_issues_before_deadline,
    num_issues_after_deadline := r.num_issues_after_deadline,
    service_level := r.service_level }

/-- The "Итог" record of `_formating_service_level_data`: each count
is the sum of the day's rows' counts; the percentage is recomputed as
`round(before / total * 100, 1)` when the summed total is nonzero and
stays `0.0` otherwise; its `day` is the loop variable's final value
(the last row's "День" cell, or the dict key when the day has no
rows). -/
def total_record (dayKey : Nat) (rows : List RawRow) : ServiceLevel :=
  let gt := (rows.map RawRow.total_issues).sum
  let gp := (rows.map RawRow.total_primary_issues).sum
  let gb := (rows.map RawRow.num_issues_before_deadline).sum
  let ga := (rows.map RawRow.num_issues_after_deadline).sum
  let gsl : ℚ := if gt ≠ 0 then pyround1 ((gb : ℚ) / (gt : ℚ) * 100) else 0
  { day := ((rows.map RawRow.day).getLast?).getD (toString dayKey),
    group := "Итог", total_issues := gt, total_primary_issues := gp,
    num_issues_before_deadline := gb, num_issues_after_deadline := ga,
    service_level := gsl }

/-- One iteration of the outer loop of
`_formating_service_level_data`: the day's row records followed by the
appended "Итог" record. -/
def formating_day (dayKey : Nat) (rows : List RawRow) :
    List ServiceLevel :=
  rows.map to_record ++ [total_record dayKey rows]

/-- `_formating_service_level_data(days)`. -/
def formating_service_level_data (days : List (Nat × List RawRow)) :
    List (List ServiceLevel) :=
  days.map (fun p => formating_day p.1 p.2)

/-- Modelled from the spec: `_get_date_range` lives in
`parser_base.py`, which is not part of the sources; the spec states
that the date range is the closed range `[start_date, end_date]`
inclusive, in range order. -/
def get_date_range (s e : Nat) : List Nat :=
  (List.range (e - s + 1)).map (s + ·)

/-- Modelled from the spec: `_forming_days_dict` lives in
`parser_base.py`, which is not part of the sources; the spec states
that the bucket keys exactly equal the closed date range — no gaps, no
extras — and that each key's bucket holds the rows belonging to that
day. -/
def forming_days_dict (dr : List Nat) (rows : List RawRow) :
    List (Nat × List RawRow) :=
  dr.map (fun d => (d, rows.filter (fun r => r.day = toString d)))

/-- `parse(text)` of `service_level.py`, from the point where the page
has been reduced to its parsed content: the report dates
`(start_date, end_date)` (day ordinals `s`, `e`), the parsed body rows
(`day_collection`), and the configured default group names
(`CONFIG.config["defaul_group_name"]["value"]`).  Mirrors the source:
empty tuple when the dates coincide; `CantGetData` when no group name
occurs in the rows; when exactly `support_group_count / 2 = 1`
distinct group occurs, the default names are merged in and
`CantGetData` is raised unless the merged set has exactly 2 names;
otherwise completion and formatting run on the groups found. -/
def parse (today s e : Nat) (day_collection : List RawRow)
    (default_group : List String) :
    Except NaumenError (List (List ServiceLevel)) :=
  if s = e then Except.ok []
  else
    let days := forming_days_dict (get_date_range s e) day_collection
    let group := (day_collection.map RawRow.group).dedup
    if group.length = 0 then Except.error NaumenError.CantGetData
    else if group.length = 1 then
      let merged := (default_group ++ group).dedup
      if merged.length ≠ 2 then Except.error NaumenError.CantGetData
      else
        Except.ok (formating_service_level_data
          (service_lavel_data_completion today days merged))
    else
      Except.ok (formating_service_level_data
        (service_lavel_data_completion today days group))

/-- The group list `parse` settles on before completion: the distinct
group names found in the rows, except that when exactly one distinct
name was found the configured default names are merged in
(`set([*default_group, *group])`). -/
def effective_groups (rows : List RawRow) (dg : List String) :
    List String :=
  if (rows.map RawRow.group).dedup.length = 1 then
    (dg ++ (rows.map RawRow.group).dedup).dedup
  else (rows.map RawRow.group).dedup

/-- A transport-level response as `_get_crm_response` sees it: the
status code and the body text. -/
structure Response where
  status_code : Nat
  text : String
  deriving DecidableEq, Repr

/-- `_get_crm_response` of `clamp/crm/client.py`, from the point where
the session has produced a response: raises `ConnectionsFailed` when
`response.status_code != 200 or not response.text`, otherwise returns
`response.text`. -/
def get_crm_response (response : Response) : Except NaumenError String :=
  if response.status_code ≠ 200 ∨ response.text = "" then
    Except.error NaumenError.ConnectionsFailed
  else Except.ok response.text

/-- The inner recursive `_searching` of `_find_report_uuid`.  `pages i`
is the collection `parse_naumen_page` returns on the i-th listing-page
fetch (the entries matching the report name).  Every iteration starts
with `sleep(delay_attems)` followed by one fetch, so the returned
counter — the index reached plus one — is both the number of fetches
and the number of delays.  An empty parse with `num_attems >= 1`
recurses on `num_attems - 1`; an empty parse with no attempt left
raises `CantGetData`; a non-empty parse is returned. -/
def searching (pages : Nat → List String) :
    Nat → Nat → Except NaumenError (List String) × Nat
  | 0, i =>
    if (pages i).isEmpty then (Except.error NaumenError.CantGetData, i + 1)
    else (Except.ok (pages i), i + 1)
  | n + 1, i =>
    if (pages i).isEmpty then searching pages n (i + 1)
    else (Except.ok (pages i), i + 1)

/-- `_find_report_uuid` of `clamp/crm/client.py`: runs `_searching`
with the configured attempt budget, then raises `CantGetData` unless
the returned collection has exactly one entry, in which case that
entry is the report uuid.  The second component counts the poll
iterations performed (each preceded by one `sleep(delay_attems)`). -/
def find_report_uuid (pages : Nat → List String) (num_attems : Nat) :
    Except NaumenError String × Nat :=
  let r := searching pages num_attems 0
  match r.1 with
  | Except.error e => (Except.error e, r.2)
  | Except.ok parsed =>
    if parsed.length ≠ 1 then (Except.error NaumenError.CantGetData, r.2)
    else (Except.ok (parsed.headD ""), r.2)

/-! ## Theorems -/

/-- C10: when the parsed report start date equals the report end date,
`parse` returns the empty tuple, raising no error and producing no
per-day records. -/
theorem parse_empty_on_equal_dates (today s : Nat)
    (rows : List RawRow) (dg : List String) :
    parse today s s rows dg = Except.ok [] := by
  unfold parse
  simp

/-- C8: the submitter raises `ConnectionsFailed` exactly when the
response status is not 200 or the response body is empty; otherwise it
returns the body text unchanged. -/
theorem get_crm_response_spec (r : Response) :
    (get_crm_response r = Except.error NaumenError.ConnectionsFailed ↔
      (r.status_code ≠ 200 ∨ r.text = "")) ∧
    (r.status_code = 200 → r.text ≠ "" →
      get_crm_response r = Except.ok r.text) := by
  unfold get_crm_response
  constructor
  · by_cases h : r.status_code ≠ 200 ∨ r.text = "" <;> simp [h]
  · intro h1 h2
    simp [h1, h2]

theorem get_crm_response_spec_witness :
    get_crm_response ⟨200, "ok"⟩ = Except.ok "ok" :=
  (get_crm_response_spec ⟨200, "ok"⟩).2 rfl (by decide)

/-- `_searching` on a listing page that never matches: every iteration
parses an empty collection, so the budget is consumed one attempt per
iteration and the final iteration raises `CantGetData`; `n + 1`
iterations happen in all, starting from index `i`. -/
theorem searching_all_empty (pages : Nat → List String)
    (hp : ∀ i, pages i = []) :
    ∀ n i, searching pages n i =
      (Except.error NaumenError.CantGetData, i + n + 1) := by
  intro n
  induction n with
  | zero => intro i; simp [searching, hp i]
  | succ m ih =>
    intro i
    have h := ih (i + 1)
    simp [searching, hp i, h]
    omega

/-- C5 (amended): on a listing page that never contains the target
name, the locator with attempt budget `num_attems` performs
`num_attems + 1` poll iterations — the initial attempt plus
`num_attems` retries, each preceded by the configured delay — and
then raises `CantGetData`. -/
theorem find_report_uuid_exhausts (pages : Nat → List String)
    (num_attems : Nat) (hp : ∀ i, pages i = []) :
    find_report_uuid pages num_attems =
      (Except.error NaumenError.CantGetData, num_attems + 1) := by
  unfold find_report_uuid
  rw [searching_all_empty pages hp num_attems 0]
  simp

theorem find_report_uuid_exhausts_witness :
    find_report_uuid (fun _ => []) 5 =
      (Except.error NaumenError.CantGetData, 6) :=
  find_report_uuid_exhausts (fun _ => []) 5 (fun _ => rfl)

/-- C5 counterexample: with attempt budget 2 and a never-matching
listing page, the locator performs 3 poll iterations before raising
`CantGetData`, not the configured 2. -/
theorem find_report_uuid_budget_two_cex :
    find_report_uuid (fun _ => []) 2 =
      (Except.error NaumenError.CantGetData, 3) ∧
    (find_report_uuid (fun _ => []) 2).2 ≠ 2 := by
  constructor
  · rfl
  · decide

/-- `_searching` when the first `k` fetches parse empty and fetch `k`
parses a non-empty collection, with at least `k` attempts budgeted:
the collection of fetch `k` is returned after exactly `k + 1`
iterations (counting from start index `i`). -/
theorem searching_first_nonempty (pages : Nat → List String) :
    ∀ k n i, (∀ j, j < k → pages (i + j) = []) → pages (i + k) ≠ [] →
      k ≤ n →
      searching pages n i = (Except.ok (pages (i + k)), i + k + 1) := by
  intro k
  induction k with
  | zero =>
    intro n i _ hne _
    have hb : (pages i).isEmpty = false := by
      simpa [List.isEmpty_iff] using hne
    cases n <;> simp [searching, hb]
  | succ m ih =>
    intro n i hj hne hkn
    obtain ⟨n', rfl⟩ : ∃ n', n = n' + 1 := ⟨n - 1, by omega⟩
    have h0 : pages i = [] := by simpa using hj 0 (by omega)
    have hrec := ih n' (i + 1)
      (fun j hjm => by
        have := hj (j + 1) (by omega)
        simpa [Nat.add_assoc, Nat.add_comm 1 j] using this)
      (by
        have : i + 1 + m = i + (m + 1) := by omega
        simpa [this] using hne)
      (by omega)
    have harith : i + 1 + m = i + (m + 1) := by omega
    simp [searching, h0, hrec, harith]

/-- C7: on the first poll attempt whose listing page yields more than
one matching entry, the locator raises `CantGetData` right after that
attempt, performing no further retries; retries happen only while the
match count is zero. -/
theorem find_report_uuid_ambiguous (pages : Nat → List String)
    (n k : Nat) (hk : ∀ j, j < k → pages j = [])
    (hg : 1 < (pages k).length) (hkn : k ≤ n) :
    find_report_uuid pages n =
      (Except.error NaumenError.CantGetData, k + 1) := by
  have hne : pages k ≠ [] := by
    intro h
    rw [h] at hg
    simp at hg
  have hs := searching_first_nonempty pages k n 0
    (fun j hj => by simpa using hk j hj) (by simpa using hne) hkn
  unfold find_report_uuid
  rw [hs]
  have hlen : (pages (0 + k)).length ≠ 1 := by
    simp only [Nat.zero_add]
    omega
  simp [hlen]
  omega

theorem find_report_uuid_ambiguous_witness :
    find_report_uuid (fun i => if i = 1 then ["u1", "u2"] else []) 3 =
      (Except.error NaumenError.CantGetData, 2) :=
  find_report_uuid_ambiguous _ 3 1
    (fun j hj => by
      have : j = 0 := by omega
      simp [this])
    (by decide) (by omega)

/-- Concrete rows used by the closed witness instances. -/
def rowA : RawRow := ⟨"1", "g1", 10, 5, 8, 2, 80⟩

def rowB : RawRow := ⟨"1", "g2", 0, 0, 0, 0, 100⟩

/-- C2: the completion step maps each day's bucket to the completed
bucket in which the pre-existing rows stay unchanged (in order, at the
front), and every other row — the synthesized ones — has all four
counts zero and service level 100 when the day is on or before today
and 0 when it is after today. -/
theorem completion_synth_values (today d : Nat) (groups : List String)
    (days : List (Nat × List RawRow)) (c : List RawRow)
    (h : (d, c) ∈ days) :
    ((d, complete_day today groups d c) ∈
        service_lavel_data_completion today days groups) ∧
    (c ≠ [] → (complete_day today groups d c).take c.length = c) ∧
    (∀ r ∈ complete_day today groups d c, r ∈ c ∨
      (r.total_issues = 0 ∧ r.total_primary_issues = 0 ∧
       r.num_issues_before_deadline = 0 ∧
       r.num_issues_after_deadline = 0 ∧
       r.service_level = (if d ≤ today then (100 : ℚ) else 0))) := by
  refine ⟨?_, ?_, ?_⟩
  · unfold service_lavel_data_completion
    exact List.mem_map.2 ⟨(d, c), h, rfl⟩
  · intro hc
    unfold complete_day
    have h0 : ¬ c.length = 0 := by simpa [List.length_eq_zero] using hc
    by_cases h2 : c.length = 2
    · simp [h0, h2]
    · simp [h0, h2, List.take_left]
  · intro r hr
    unfold complete_day at hr
    by_cases h0 : c.length = 0
    · right
      rw [List.length_eq_zero] at h0
      subst h0
      simp at hr
      obtain ⟨g, _, rfl⟩ := hr
      simp [synth_row]
    · by_cases h2 : c.length = 2
      · simp [h0, h2] at hr
        exact Or.inl hr
      · simp [h0, h2] at hr
        rcases hr with hr | hr
        · exact Or.inl hr
        · right
          obtain ⟨g, _, rfl⟩ := hr
          simp [synth_row]

theorem completion_synth_values_witness :
    ((3, complete_day 5 ["g1", "g2"] 3 [rowA]) ∈
        service_lavel_data_completion 5 [(3, [rowA])] ["g1", "g2"]) ∧
    (complete_day 5 ["g1", "g2"] 3 [rowA]).take 1 = [rowA] := by
  have h := completion_synth_values 5 3 ["g1", "g2"] [(3, [rowA])] [rowA]
    (by simp)
  exact ⟨h.1, by simpa using h.2.1 (by simp)⟩

/-- Each per-day list the formatter outputs is the day's row records
followed by the day's total record. -/
theorem formating_mem (days : List (Nat × List RawRow))
    (l : List ServiceLevel)
    (h : l ∈ formating_service_level_data days) :
    ∃ d rows, (d, rows) ∈ days ∧
      l = rows.map to_record ++ [total_record d rows] := by
  unfold formating_service_level_data at h
  obtain ⟨⟨d, rows⟩, hm, rfl⟩ := List.mem_map.1 h
  exact ⟨d, rows, hm, rfl⟩

/-- C3: in every per-day list of the normalizer's output, the total
record's four counts are the sums of the day's group records'
corresponding counts. -/
theorem total_counts_are_sums (days : List (Nat × List RawRow))
    (l : List ServiceLevel)
    (h : l ∈ formating_service_level_data days) :
    ∃ t, l.getLast? = some t ∧
      t.total_issues =
        (l.dropLast.map ServiceLevel.total_issues).sum ∧
      t.total_primary_issues =
        (l.dropLast.map ServiceLevel.total_primary_issues).sum ∧
      t.num_issues_before_deadline =
        (l.dropLast.map ServiceLevel.num_issues_before_deadline).sum ∧
      t.num_issues_after_deadline =
        (l.dropLast.map ServiceLevel.num_issues_after_deadline).sum := by
  obtain ⟨d, rows, _, rfl⟩ := formating_mem days l h
  refine ⟨total_record d rows, by simp, ?_, ?_, ?_, ?_⟩ <;>
    simp [total_record, to_record, List.dropLast_concat, List.map_map,
      Function.comp_def]

theorem total_counts_are_sums_witness :
    ∃ t, (formating_day 1 [rowA, rowB]).getLast? = some t ∧
      t.total_issues =
        ((formating_day 1 [rowA, rowB]).dropLast.map
          ServiceLevel.total_issues).sum ∧
      t.total_primary_issues =
        ((formating_day 1 [rowA, rowB]).dropLast.map
          ServiceLevel.total_primary_issues).sum ∧
      t.num_issues_before_deadline =
        ((formating_day 1 [rowA, rowB]).dropLast.map
          ServiceLevel.num_issues_before_deadline).sum ∧
      t.num_issues_after_deadline =
        ((formating_day 1 [rowA, rowB]).dropLast.map
          ServiceLevel.num_issues_after_deadline).sum :=
  total_counts_are_sums [(1, [rowA, rowB])] _
    (by simp [formating_service_level_data])

/-- C4: in every per-day list of the normalizer's output, the total
record comes last, after all the day's group records, and its service
level is `round(before / total * 100, 1)` computed from its own
summed counts when its summed total is nonzero and `0.0` when that
total is zero. -/
theorem total_service_level_formula (days : List (Nat × List RawRow))
    (l : List ServiceLevel)
    (h : l ∈ formating_service_level_data days) :
    ∃ t, l.getLast? = some t ∧ l = l.dropLast ++ [t] ∧
      t.group = "Итог" ∧
      t.service_level =
        (if t.total_issues ≠ 0 then
          pyround1 ((t.num_issues_before_deadline : ℚ) /
            (t.total_issues : ℚ) * 100)
        else 0) := by
  obtain ⟨d, rows, _, rfl⟩ := formating_mem days l h
  refine ⟨total_record d rows, by simp, ?_, rfl, ?_⟩
  · simp [List.dropLast_concat]
  · simp [total_record]

theorem total_service_level_formula_witness :
    ∃ t, (formating_day 1 [rowA, rowB]).getLast? = some t ∧
      formating_day 1 [rowA, rowB] =
        (formating_day 1 [rowA, rowB]).dropLast ++ [t] ∧
      t.group = "Итог" ∧
      t.service_level =
        (if t.total_issues ≠ 0 then
          pyround1 ((t.num_issues_before_deadline : ℚ) /
            (t.total_issues : ℚ) * 100)
        else 0) :=
  total_service_level_formula [(1, [rowA, rowB])] _
    (by simp [formating_service_level_data])

/-- The completion step leaves a bucket set untouched when every day
already holds exactly two rows. -/
theorem completion_noop (today : Nat) (days : List (Nat × List RawRow))
    (groups : List String) (h2 : ∀ p ∈ days, p.2.length = 2) :
    service_lavel_data_completion today days groups = days := by
  induction days with
  | nil => rfl
  | cons p ds ih =>
    unfold service_lavel_data_completion at ih ⊢
    simp only [List.map_cons]
    have hp : p.2.length = 2 := h2 p (by simp)
    rw [ih (fun q hq => h2 q (by simp [hq]))]
    simp [complete_day, hp]

/-- C9: on an already-complete bucket set — every day of the range
present and holding exactly one row per known group, with the
deployment's two known groups — applying the completion step twice
gives the same result as applying it once. -/
theorem completion_idempotent_on_complete (today : Nat)
    (days : List (Nat × List RawRow)) (groups : List String)
    (hg : groups.length = 2)
    (hfull : ∀ p ∈ days, (p.2.map RawRow.group).Perm groups) :
    service_lavel_data_completion today
        (service_lavel_data_completion today days groups) groups =
      service_lavel_data_completion today days groups := by
  have h2 : ∀ p ∈ days, p.2.length = 2 := by
    intro p hp
    have := (hfull p hp).length_eq
    simpa [hg] using this
  rw [completion_noop today days groups h2,
    completion_noop today days groups h2]

theorem completion_idempotent_witness :
    service_lavel_data_completion 5
        (service_lavel_data_completion 5 [(1, [rowA, rowB])]
          ["g1", "g2"]) ["g1", "g2"] =
      service_lavel_data_completion 5 [(1, [rowA, rowB])]
        ["g1", "g2"] :=
  completion_idempotent_on_complete 5 [(1, [rowA, rowB])] ["g1", "g2"]
    rfl
    (by
      intro p hp
      simp at hp
      subst hp
      decide)

/-- C6: with distinct report dates, the parser raises `CantGetData`
when no distinct group name occurs in the rows; when exactly one
distinct name occurs (half the expected count of 2) it merges in the
configured default names and raises `CantGetData` exactly when the
merged set does not have 2 names, succeeding otherwise; with two or
more distinct names it proceeds with the groups found. -/
theorem parse_group_policy (today s e : Nat) (rows : List RawRow)
    (dg : List String) (hse : s ≠ e) :
    ((rows.map RawRow.group).dedup.length = 0 →
        parse today s e rows dg = Except.error NaumenError.CantGetData) ∧
    ((rows.map RawRow.group).dedup.length = 1 →
      ((dg ++ (rows.map RawRow.group).dedup).dedup.length ≠ 2 →
          parse today s e rows dg =
            Except.error NaumenError.CantGetData) ∧
      ((dg ++ (rows.map RawRow.group).dedup).dedup.length = 2 →
          ∃ out, parse today s e rows dg = Except.ok out)) ∧
    (2 ≤ (rows.map RawRow.group).dedup.length →
        ∃ out, parse today s e rows dg = Except.ok out) := by
  refine ⟨?_, ?_, ?_⟩
  · intro h
    unfold parse
    simp [hse, h]
  · intro h1
    have h0 : ¬ (rows.map RawRow.group).dedup.length = 0 := by omega
    constructor
    · intro hm
      unfold parse
      simp [hse, h0, h1, hm]
    · intro hm
      unfold parse
      simp [hse, h0, h1, hm]
  · intro h
    have h0 : ¬ (rows.map RawRow.group).dedup.length = 0 := by omega
    have h1 : ¬ (rows.map RawRow.group).dedup.length = 1 := by omega
    unfold parse
    simp [hse, h0, h1]

theorem parse_group_policy_witness :
    parse 10 1 2 [] [] = Except.error NaumenError.CantGetData :=
  (parse_group_policy 10 1 2 [] [] (by omega)).1 (by decide)

/-- Completing a day's bucket whose rows carry pairwise-distinct group
names drawn from the known group list `G` (nodup, of length 2) yields
a bucket whose group names are a permutation of `G`. -/
theorem complete_day_group_perm (today d : Nat) (G : List String)
    (c : List RawRow) (hG : G.Nodup) (hGlen : G.length = 2)
    (hc : (c.map RawRow.group).Nodup)
    (hsub : ∀ g ∈ c.map RawRow.group, g ∈ G) :
    ((complete_day today G d c).map RawRow.group).Perm G := by
  unfold complete_day
  by_cases h0 : c.length = 0
  · simp [h0, List.map_map, Function.comp_def, synth_row]
  · by_cases h2 : c.length = 2
    · simp [h0, h2]
      have hsp := List.subperm_of_subset hc (fun g hg => hsub g hg)
      exact hsp.perm_of_length_le (by simp [hGlen, h2])
    · simp [h0, h2, List.map_append, List.map_map, Function.comp_def,
        synth_row, decide_not, -List.mem_map]
      have key : (c.map RawRow.group).Perm
          (G.filter (fun g => decide (g ∈ c.map RawRow.group))) := by
        refine (List.perm_ext_iff_of_nodup hc (hG.filter _)).2 ?_
        intro a
        simp only [List.mem_filter, decide_eq_true_eq]
        exact ⟨fun ha => ⟨hsub a ha, ha⟩, fun ha => ha.2⟩
      exact (key.append_right _).trans (List.filter_append_perm _ G)

/-- Every row of a completed bucket for day `d` carries day cell
`toString d`, provided the original rows do. -/
theorem complete_day_day_eq (today d : Nat) (G : List String)
    (c : List RawRow) (hc : ∀ r ∈ c, r.day = toString d) :
    ∀ r ∈ complete_day today G d c, r.day = toString d := by
  intro r hr
  unfold complete_day at hr
  by_cases h0 : c.length = 0
  · simp [h0] at hr
    obtain ⟨g, _, rfl⟩ := hr
    rfl
  · by_cases h2 : c.length = 2
    · simp [h0, h2] at hr
      exact hc r hr
    · simp [h0, h2] at hr
      rcases hr with hr | ⟨g, _, rfl⟩
      · exact hc r hr
      · rfl

/-- Every record of a formatted day carries day cell `toString d`,
provided the bucket's rows do (the total record's day is the last
row's day cell, or the key when the bucket is empty). -/
theorem formating_day_day_eq (d : Nat) (rows : List RawRow)
    (hc : ∀ r ∈ rows, r.day = toString d) :
    ∀ rec ∈ formating_day d rows, rec.day = toString d := by
  intro rec hrec
  unfold formating_day at hrec
  rcases List.mem_append.1 hrec with hm | hm
  · obtain ⟨r, hr, rfl⟩ := List.mem_map.1 hm
    exact hc r hr
  · simp at hm
    subst hm
    simp only [total_record]
    cases hlast : (rows.map RawRow.day).getLast? with
    | none => simp [hlast]
    | some a =>
      have ha : a ∈ rows.map RawRow.day := by
        obtain ⟨hne, rfl⟩ := List.mem_getLast?_eq_getLast
          (show a ∈ (rows.map RawRow.day).getLast? from by
            simp [hlast])
        exact List.getLast_mem hne
      obtain ⟨r, hr, rfl⟩ := List.mem_map.1 ha
      simp [hlast, hc r hr]

/-- C1 (amended): for report dates with `start < end` and a validly
parsed report — the group list `parse` settles on (the distinct names
found, merged with the configured defaults when only one was found)
has the expected two names, and no day's rows repeat a group name —
the parse output has exactly `(end - start) + 1` per-day record
lists, one per calendar day of the closed range in range order (every
record of the i-th list carries day `s + i`), each list holding one
record per known group followed by the total record, `2 + 1` records
in all. -/
theorem parse_day_grid (today s e : Nat) (rows : List RawRow)
    (dg : List String) (hlt : s < e)
    (hg2 : (effective_groups rows dg).length = 2)
    (hnd : ∀ d ∈ get_date_range s e,
      ((rows.filter (fun r => r.day = toString d)).map
        RawRow.group).Nodup) :
    ∃ out, parse today s e rows dg = Except.ok out ∧
      out.length = (e - s) + 1 ∧
      (∀ l ∈ out, l.length = 2 + 1 ∧
        (l.dropLast.map ServiceLevel.group).Perm
          (effective_groups rows dg) ∧
        l.getLast?.map ServiceLevel.group = some "Итог") ∧
      (∀ i, ∀ hi : i < out.length,
        ∀ rec ∈ out.get ⟨i, hi⟩, rec.day = toString (s + i)) := by
  have hse : s ≠ e := Nat.ne_of_lt hlt
  have h0 : ¬ (rows.map RawRow.group).dedup.length = 0 := by
    intro h
    have heff : effective_groups rows dg =
        (rows.map RawRow.group).dedup := by
      unfold effective_groups
      rw [if_neg (by omega)]
    rw [heff, h] at hg2
    omega
  refine ⟨(get_date_range s e).map (fun d =>
      formating_day d (complete_day today
        (effective_groups rows dg) d
        (rows.filter (fun r => r.day = toString d)))), ?_, ?_, ?_, ?_⟩
  · by_cases h1 : (rows.map RawRow.group).dedup.length = 1
    · have hm2 : (dg ++ (rows.map RawRow.group).dedup).dedup.length
          = 2 := by
        have heff : effective_groups rows dg =
            (dg ++ (rows.map RawRow.group).dedup).dedup := by
          unfold effective_groups
          rw [if_pos h1]
        rw [heff] at hg2
        exact hg2
      unfold parse
      simp [hse, h0, h1, hm2, effective_groups,
        formating_service_level_data, service_lavel_data_completion,
        forming_days_dict, List.map_map, Function.comp_def]
    · unfold parse
      simp [hse, h0, h1, effective_groups,
        formating_service_level_data, service_lavel_data_completion,
        forming_days_dict, List.map_map, Function.comp_def]
  · simp [get_date_range]
  · intro l hl
    obtain ⟨d, hd, rfl⟩ := List.mem_map.1 hl
    have hGnd : (effective_groups rows dg).Nodup := by
      unfold effective_groups
      split <;> exact List.nodup_dedup _
    have hsub : ∀ g ∈ (rows.filter
        (fun r => r.day = toString d)).map RawRow.group,
        g ∈ effective_groups rows dg := by
      intro g hgm
      obtain ⟨r, hr, rfl⟩ := List.mem_map.1 hgm
      have hgd : r.group ∈ (rows.map RawRow.group).dedup :=
        List.mem_dedup.2
          (List.mem_map.2 ⟨r, List.mem_of_mem_filter hr, rfl⟩)
      unfold effective_groups
      split
      · exact List.mem_dedup.2 (List.mem_append.2 (Or.inr hgd))
      · exact hgd
    have hperm := complete_day_group_perm today d _ _ hGnd hg2
      (hnd d hd) hsub
    have hlen2 : (complete_day today
        (effective_groups rows dg) d
        (rows.filter (fun r => r.day = toString d))).length = 2 := by
      have := hperm.length_eq
      simpa [hg2] using this
    refine ⟨?_, ?_, ?_⟩
    · simp [formating_day, hlen2]
    · simpa [formating_day, List.dropLast_concat, List.map_map,
        Function.comp_def, to_record] using hperm
    · simp [formating_day, total_record]
  · intro i hi rec hrec
    have hrange : i < (get_date_range s e).length := by
      simpa using hi
    have hget : ((get_date_range s e).map (fun d =>
        formating_day d (complete_day today
          (effective_groups rows dg) d
          (rows.filter (fun r => r.day = toString d))))).get ⟨i, hi⟩ =
        formating_day (s + i) (complete_day today
          (effective_groups rows dg) (s + i)
          (rows.filter (fun r => r.day = toString (s + i)))) := by
      simp [List.get_eq_getElem, List.getElem_map, get_date_range,
        List.getElem_range]
    rw [hget] at hrec
    have hbucket : ∀ r ∈ rows.filter
        (fun r => r.day = toString (s + i)),
        r.day = toString (s + i) := by
      intro r hr
      have := List.of_mem_filter hr
      simpa using this
    exact formating_day_day_eq _ _
      (complete_day_day_eq _ _ _ _ hbucket) rec hrec

/-- C1 counterexample: at `start = end = 5` — a valid pair with
`start ≤ end` — the parse output is the empty tuple, holding `0`
per-day record lists rather than `(5 - 5) + 1 = 1`. -/
theorem parse_day_grid_cex :
    parse 10 5 5 [rowA, rowB] [] = Except.ok [] ∧
    ([] : List (List ServiceLevel)).length ≠ (5 - 5) + 1 := by
  constructor
  · unfold parse
    simp
  · decide

theorem parse_day_grid_witness :
    ∃ out, parse 10 1 2 [rowA] ["g1", "g2"] = Except.ok out ∧
      out.length = (2 - 1) + 1 ∧
      (∀ l ∈ out, l.length = 2 + 1 ∧
        (l.dropLast.map ServiceLevel.group).Perm
          (effective_groups [rowA] ["g1", "g2"]) ∧
        l.getLast?.map ServiceLevel.group = some "Итог") ∧
      (∀ i, ∀ hi : i < out.length,
        ∀ rec ∈ out.get ⟨i, hi⟩, rec.day = toString (1 + i)) :=
  parse_day_grid 10 1 2 [rowA] ["g1", "g2"] (by omega) (by decide)
    (by decide)

end NaumenApi
